import Mathlib

/-
Shallow embedding of the EmulatorLauncher repository
(src/emulators.py and src/emulator_launcher.py).

External effects (shell probes via os.popen, HTTP release queries via
requests.get, and the on-disk filesystem) are modelled by explicit
environment and state records; every Python function relevant to the
claims is translated to a Lean function over those records.
-/

namespace EmulatorLauncher

/-- Python runtime errors that the embedded code can raise.
`indexError` models an IndexError from an out-of-range list subscript,
`fileNotFoundError` and `fileExistsError` model the OSErrors raised by
os.rename and os.mkdir, `requestError` models a network or JSON failure
inside requests.get(...).json()["tag_name"]. -/
inductive PyError where
  | indexError
  | fileNotFoundError
  | fileExistsError
  | requestError
  deriving DecidableEq, Repr

/-- Helper for pySplit: walk the characters, `acc` holding the current
token reversed; whitespace closes the current token (if any), so empty
tokens never appear. -/
def pySplitAux : List Char → List Char → List String
  | [], acc => if acc.isEmpty then [] else [String.mk acc.reverse]
  | c :: cs, acc =>
    if c.isWhitespace then
      if acc.isEmpty then pySplitAux cs []
      else String.mk acc.reverse :: pySplitAux cs []
    else pySplitAux cs (c :: acc)

/-- Python str.split() with no separator: split on whitespace runs and
discard empty tokens. -/
def pySplit (s : String) : List String :=
  pySplitAux s.toList []

/-- Helper for pySplitLines: split at every newline character, keeping
empty pieces (the result always has at least one element). -/
def pySplitLinesAux : List Char → List Char → List String
  | [], acc => [String.mk acc.reverse]
  | c :: cs, acc =>
    if c = '\n' then String.mk acc.reverse :: pySplitLinesAux cs []
    else pySplitLinesAux cs (c :: acc)

/-- Python str.split("\n"): split at each newline, keeping empty pieces. -/
def pySplitLines (s : String) : List String :=
  pySplitLinesAux s.toList []

/-- Python list subscript l[i] for a nonnegative index: raises IndexError
when the index is out of range. -/
def pyIndex (l : List String) (i : Nat) : Except PyError String :=
  match l[i]? with
  | some v => Except.ok v
  | none => Except.error PyError.indexError

/-- Python os.path.splitext restricted to plain file names (no path
separators, as used on entries of the rom zips directory): split at the
last dot, except that a name whose every character before that dot is a
dot (such as ".bashrc") has no extension. -/
def splitext (p : String) : String × String :=
  let cs := p.toList
  let dots := (List.range cs.length).filter (fun i => cs.getD i ' ' == '.')
  match dots.getLast? with
  | none => (p, "")
  | some i =>
    if (cs.take i).any (fun c => c != '.') then
      (String.mk (cs.take i), String.mk (cs.drop i))
    else
      (p, "")

/-- The four emulator classes of src/emulators.py.  Each Python nested
class (`__Mgba`, `__Dolphin`, `__MelonDS`, `__Azahar`) is instantiated
exactly once (the constants MGBA, DOLPHIN, MELONDS, AZAHAR), so each
instance is one constructor of this enumeration. -/
inductive Emulator where
  | MGBA
  | DOLPHIN
  | MELONDS
  | AZAHAR
  deriving DecidableEq, Repr

/-- The `id` attribute set by each constructor (also the directory name). -/
def Emulator.id : Emulator → String
  | .MGBA => "mgba"
  | .DOLPHIN => "dolphin"
  | .MELONDS => "melonds"
  | .AZAHAR => "azahar"

/-- The `ext` attribute: extension of the game files for this emulator. -/
def Emulator.ext : Emulator → String
  | .MGBA => "gba"
  | .DOLPHIN => "rvz"
  | .MELONDS => "nds"
  | .AZAHAR => "cci"

/-- The `gh_path` attribute: GitHub repository path of the release feed;
empty for Dolphin, which opts out of release tracking. -/
def Emulator.gh_path : Emulator → String
  | .MGBA => "mgba-emu/mgba"
  | .DOLPHIN => ""
  | .MELONDS => "melonDS-emu/melonDS"
  | .AZAHAR => "azahar-emu/azahar"

/-- Emulators.ALL: the fixed registry, in registration order. -/
def Emulators.ALL : List Emulator :=
  [Emulator.MGBA, Emulator.DOLPHIN, Emulator.MELONDS, Emulator.AZAHAR]

/-- Emulators.from_ext: linear scan over the registry returning the first
emulator whose `ext` equals the argument, None when no match. -/
def Emulators.from_ext (ext : String) : Option Emulator :=
  Emulators.ALL.find? (fun e => e.ext == ext)

/-- External environment of the version probes: `popen e` is the raw
stdout text produced by running emulator e with its version flag
(os.popen(...).read()); `gh_release e` is the outcome of the GitHub
release query requests.get(...).json()["tag_name"] for the repo
e.gh_path, an error when the network request or the JSON access fails. -/
structure Env where
  popen : Emulator → String
  gh_release : Emulator → Except PyError String

/-- installed_version, per class.
Mgba: os.popen output split on whitespace, token 1.
Dolphin: the constant "auto".
MelonDS: first line of the --help output, split on whitespace, token 1.
Azahar: output split on whitespace, token 1.
An out-of-range token subscript raises IndexError. -/
def Emulator.installed_version (e : Emulator) (env : Env) : Except PyError String :=
  match e with
  | .MGBA => pyIndex (pySplit (env.popen .MGBA)) 1
  | .DOLPHIN => Except.ok "auto"
  | .MELONDS =>
    match pyIndex (pySplitLines (env.popen .MELONDS)) 0 with
    | Except.error err => Except.error err
    | Except.ok first => pyIndex (pySplit first) 1
  | .AZAHAR => pyIndex (pySplit (env.popen .AZAHAR)) 1

/-- latest_version: Dolphin overrides it to the constant "auto"; every
other emulator uses the base-class GitHub release query on its gh_path. -/
def Emulator.latest_version (e : Emulator) (env : Env) : Except PyError String :=
  match e with
  | .DOLPHIN => Except.ok "auto"
  | _ => env.gh_release e

/-- The tuples appended by App.check_emu_versions:
(installed version, latest version, emulator). -/
abbrev VersionReport := String × String × Emulator

/-- The loop body of App.check_emu_versions over a list of emulators:
each iteration evaluates the installed and latest versions (a raised
exception propagates and aborts the whole loop, discarding every report)
and appends a report exactly when the two differ. -/
def checkLoop (env : Env) : List Emulator → Except PyError (List VersionReport)
  | [] => Except.ok []
  | e :: rest =>
    match e.installed_version env with
    | Except.error err => Except.error err
    | Except.ok installed =>
      match e.latest_version env with
      | Except.error err => Except.error err
      | Except.ok latest =>
        match checkLoop env rest with
        | Except.error err => Except.error err
        | Except.ok tail =>
          if installed ≠ latest then Except.ok ((installed, latest, e) :: tail)
          else Except.ok tail

/-- App.check_emu_versions: run the loop over the whole registry.  The
result is the `outdated` list handed to the EmuOutdated window, or the
uncaught exception that escaped the method. -/
def check_emu_versions (env : Env) : Except PyError (List VersionReport) :=
  checkLoop env Emulators.ALL

/-- A game catalog entry: the Game object reduced to its core data
(display name and bound emulator). -/
structure GameEntry where
  name : String
  emulator : Emulator
  deriving DecidableEq, Repr

/-- Derived game file path of a Game object. -/
def GameEntry.path (g : GameEntry) : String :=
  g.emulator.id ++ "/" ++ g.name ++ "/game." ++ g.emulator.ext

/-- WrappingFrame.sort: Python list.sort with key g.name, i.e. a stable
sort by the name string in ascending order. -/
def WrappingFrame.sort (games : List GameEntry) : List GameEntry :=
  games.mergeSort (fun a b => decide (a.name ≤ b.name))

/-- App.listdir: filter a raw directory listing, dropping the application
name itself (defaulting to the directory name) and its three companion
entries with suffixes .config, .home and .png. -/
def App.listdir (entries : List String) (dir_name : String) (app_name : Option String) : List String :=
  let app := app_name.getD dir_name
  entries.filter (fun d =>
    !(d == app || d == app ++ ".config" || d == app ++ ".home" || d == app ++ ".png"))

/-- App.load_games: full catalog rebuild.  `listing dir` is the raw
os.listdir result for directory `dir`.  For every registry emulator, every
surviving entry of its directory listing becomes one GameEntry; the
collected catalog is then sorted. -/
def App.load_games (listing : String → List String) : List GameEntry :=
  WrappingFrame.sort
    (Emulators.ALL.flatMap (fun emu =>
      (App.listdir (listing emu.id) emu.id none).map (fun game => GameEntry.mk game emu)))

/-- Filesystem state touched by AddGame.add_game: the file names inside
the rom zips intake directory, the existing game directories as pairs
(emulator id, game name), and the files inside game directories as
triples (emulator id, game name, file name). -/
structure FS where
  rom_zips : List String
  game_dirs : List (String × String)
  game_files : List (String × String × String)
  deriving DecidableEq, Repr

/-- How a run of AddGame.add_game ends: normal completion (the window
reloads the catalog and withdraws), the silent early return taken when no
emulator matches the extension, or an uncaught exception escaping the
callback. -/
inductive AddOutcome where
  | completed
  | silentReturn
  | raised (e : PyError)
  deriving DecidableEq, Repr

/-- AddGame.add_game over the filesystem state.  `icon_ok` tells whether
the icon download and save (requests.get on the entered URL, Image.open,
save) succeeds; its failure is caught by the try/except and only skips
the icon file.  os.mkdir raises FileExistsError when the game directory
already exists; os.rename raises FileNotFoundError when the selected file
is no longer in the rom zips directory.  Neither call is guarded, so
those exceptions escape with the state as modified so far. -/
def AddGame.add_game (fs : FS) (file name : String) (icon_ok : Bool) : FS × AddOutcome :=
  let ext := (splitext file).2.drop 1
  match Emulators.from_ext ext with
  | none => (fs, AddOutcome.silentReturn)
  | some emu =>
    if (emu.id, name) ∈ fs.game_dirs then
      (fs, AddOutcome.raised PyError.fileExistsError)
    else
      let fs1 : FS := { fs with game_dirs := fs.game_dirs ++ [(emu.id, name)] }
      if file ∈ fs1.rom_zips then
        let fs2 : FS := { fs1 with
          rom_zips := fs1.rom_zips.erase file,
          game_files := fs1.game_files ++ [(emu.id, name, "game." ++ ext)] }
        let fs3 : FS :=
          if icon_ok then
            { fs2 with game_files := fs2.game_files ++ [(emu.id, name, "icon.png")] }
          else fs2
        (fs3, AddOutcome.completed)
      else
        (fs1, AddOutcome.raised PyError.fileNotFoundError)

/-- The os.listdir view of an emulator directory under filesystem state
`fs`: the emulator installation artifacts living there (modelled by
`installFiles`, e.g. the binary and the .config/.home/.png companions)
together with one entry per game directory of that emulator. -/
def FS.listing (fs : FS) (installFiles : String → List String) (dir : String) : List String :=
  installFiles dir ++ (fs.game_dirs.filter (fun p => p.1 == dir)).map (fun p => p.2)

/-- An environment in which every probe succeeds: each binary prints a
two-token version line and every release query answers "2.0". -/
def envA : Env :=
  { popen := fun e => match e with
      | .DOLPHIN => ""
      | _ => "name 1.0 extra",
    gh_release := fun _ => Except.ok "2.0" }

/-- The installed versions obtained under envA. -/
def iA : Emulator → String := fun e => match e with
  | .DOLPHIN => "auto"
  | _ => "1.0"

/-- The latest versions obtained under envA. -/
def lA : Emulator → String := fun e => match e with
  | .DOLPHIN => "auto"
  | _ => "2.0"

/-- An environment where the mgba binary is missing: os.popen on a
missing binary yields empty output, so its version probe has no token 1.
The other probes all succeed, and melonds moreover has a genuine version
mismatch (installed 1.0, latest 2.0) that a completed pass would report. -/
def env_mgba_missing : Env :=
  { popen := fun e => match e with
      | .MGBA => ""
      | .DOLPHIN => ""
      | .MELONDS => "melonDS 1.0\nusage: melonds [file]"
      | .AZAHAR => "azahar 1.0 build",
    gh_release := fun e => match e with
      | .MELONDS => Except.ok "2.0"
      | _ => Except.ok "1.0" }

/-- An empty filesystem: nothing in rom zips, no game directories. -/
def fs_empty : FS := { rom_zips := [], game_dirs := [], game_files := [] }

/-- A filesystem whose rom zips directory holds one supported file. -/
def fsW : FS := { rom_zips := ["Pokemon.gba"], game_dirs := [], game_files := [] }

/-- A filesystem whose rom zips directory holds one unsupported file. -/
def fsU : FS := { rom_zips := ["Pokemon.xyz"], game_dirs := [], game_files := [] }

/-- A filesystem whose rom zips directory holds another unsupported file. -/
def fsV : FS := { rom_zips := ["game.bin"], game_dirs := [], game_files := [] }

/-- Emulator installation artifacts of each directory: the binary plus
its three companion entries. -/
def installFilesW : String → List String :=
  fun d => [d, d ++ ".config", d ++ ".home", d ++ ".png"]

/-- The directory listings of the spec scenario: the mgba directory holds
the game directory Pokemon and the reserved entry mgba.config; every
other directory is empty. -/
def scenario_listing : String → List String :=
  fun dir => if dir == "mgba" then ["Pokemon", "mgba.config"] else []

/-- Characterization of the version-check loop when every probe
succeeds: it returns exactly one report (installed, latest, emulator) per
emulator whose two versions differ, in registry order. -/
theorem checkLoop_eq_ok (env : Env) (i l : Emulator → String)
    (hI : ∀ e, Emulator.installed_version e env = Except.ok (i e))
    (hL : ∀ e, Emulator.latest_version e env = Except.ok (l e)) :
    ∀ es : List Emulator, checkLoop env es =
      Except.ok ((es.filter (fun e => decide (i e ≠ l e))).map (fun e => (i e, l e, e))) := by
  intro es
  induction es with
  | nil => rfl
  | cons e rest ih =>
    rw [checkLoop, hI, hL, ih, List.filter_cons]
    by_cases h : i e = l e
    · simp [h]
    · simp [h]

/-- Every report of a successful version-check loop records the actual
probe results of its emulator and a genuine mismatch. -/
theorem checkLoop_mem (env : Env) :
    ∀ (es : List Emulator) (L : List VersionReport),
      checkLoop env es = Except.ok L → ∀ r ∈ L,
        Emulator.installed_version r.2.2 env = Except.ok r.1 ∧
        Emulator.latest_version r.2.2 env = Except.ok r.2.1 ∧ r.1 ≠ r.2.1 := by
  intro es
  induction es with
  | nil =>
    intro L hL r hr
    rw [checkLoop] at hL
    injection hL with h
    subst h
    simp at hr
  | cons e rest ih =>
    intro L hL r hr
    rw [checkLoop] at hL
    cases hInst : Emulator.installed_version e env with
    | error err => rw [hInst] at hL; exact absurd hL (by simp)
    | ok installed =>
      rw [hInst] at hL
      cases hLat : Emulator.latest_version e env with
      | error err => rw [hLat] at hL; exact absurd hL (by simp)
      | ok latest =>
        rw [hLat] at hL
        cases hTail : checkLoop env rest with
        | error err => rw [hTail] at hL; exact absurd hL (by simp)
        | ok tail =>
          rw [hTail] at hL
          dsimp only at hL
          by_cases hne : installed ≠ latest
          · rw [if_pos hne] at hL
            injection hL with h
            subst h
            rcases List.mem_cons.mp hr with hhead | htail
            · subst hhead
              exact ⟨hInst, hLat, hne⟩
            · exact ih tail hTail r htail
          · rw [if_neg hne] at hL
            injection hL with h
            subst h
            exact ih tail hTail r hr

/-- In the canonical report list, each registry emulator is mentioned by
no report when its versions match and by exactly one report otherwise. -/
theorem report_count (i l : Emulator → String) :
    ∀ e ∈ Emulators.ALL,
      (((Emulators.ALL.filter (fun x => decide (i x ≠ l x))).map
          (fun x => (i x, l x, x))).filter (fun r => decide (r.2.2 = e))).length
        = if i e = l e then 0 else 1 := by
  intro e he
  rw [List.filter_map, List.filter_filter]
  fin_cases he
  · by_cases h : i Emulator.MGBA = l Emulator.MGBA <;>
      simp +decide [Emulators.ALL, List.filter_cons, h]
  · by_cases h : i Emulator.DOLPHIN = l Emulator.DOLPHIN <;>
      simp +decide [Emulators.ALL, List.filter_cons, h]
  · by_cases h : i Emulator.MELONDS = l Emulator.MELONDS <;>
      simp +decide [Emulators.ALL, List.filter_cons, h]
  · by_cases h : i Emulator.AZAHAR = l Emulator.AZAHAR <;>
      simp +decide [Emulators.ALL, List.filter_cons, h]

/-- Membership in a filtered directory listing: an entry survives
App.listdir exactly when it is listed and is none of the four reserved
names. -/
theorem mem_listdir_iff (entries : List String) (aid d : String) :
    d ∈ App.listdir entries aid none ↔
      d ∈ entries ∧ d ∉ [aid, aid ++ ".config", aid ++ ".home", aid ++ ".png"] := by
  simp [App.listdir, List.mem_filter, not_or, and_assoc]

/-- A successful extension lookup returns a registry member whose ext
field is the queried extension. -/
theorem from_ext_mem {s : String} {e : Emulator} (h : Emulators.from_ext s = some e) :
    e ∈ Emulators.ALL ∧ e.ext = s := by
  refine ⟨List.mem_of_find?_eq_some h, ?_⟩
  have := List.find?_some h
  simpa using this

/-- Claim C1: the claim states that a failure of a version probe is
caught per emulator and does not abort the whole version-check pass.
The code has no exception handling: with the mgba binary missing, its
installed-version probe raises IndexError on the empty popen output and
check_emu_versions aborts with that uncaught exception, producing no
report for any emulator, even though melonds has a mismatch (installed
1.0, latest 2.0) that a completed pass would have reported.  No sentinel
unknown version exists anywhere in the code. -/
theorem C1_probe_failure_aborts_whole_pass :
    check_emu_versions env_mgba_missing = Except.error PyError.indexError ∧
    Emulator.installed_version Emulator.MELONDS env_mgba_missing = Except.ok "1.0" ∧
    Emulator.latest_version Emulator.MELONDS env_mgba_missing = Except.ok "2.0" :=
  ⟨rfl, rfl, rfl⟩

/-- Claim C2: the claim states that when the file move fails after the
game directory was created, the directory is cleaned up, a
FilesystemError is surfaced and no partial state is left.  The code
wraps neither os.mkdir nor os.rename: when the selected file is gone
from rom zips, mkdir succeeds, rename raises FileNotFoundError, and the
freshly created mgba/Pokemon directory is left on disk while the raw
OSError escapes - no cleanup, no FilesystemError. -/
theorem C2_move_failure_leaves_partial_state :
    AddGame.add_game fs_empty "Pokemon.gba" "Pokemon" false =
      ({ rom_zips := [], game_dirs := [("mgba", "Pokemon")], game_files := [] },
       AddOutcome.raised PyError.fileNotFoundError) := by
  decide

/-- Claim C3 (amended): with a source file whose extension matches no
registered emulator, add_game aborts through a silent early return: no
directory is created, the file is not moved, the whole filesystem state
is unchanged - but no UnsupportedExtension error is reported to the
user; the abort is invisible. -/
theorem C3_unsupported_extension_silent_noop (fs : FS) (file name : String) (icon_ok : Bool)
    (h : Emulators.from_ext ((splitext file).2.drop 1) = none) :
    AddGame.add_game fs file name icon_ok = (fs, AddOutcome.silentReturn) := by
  simp [AddGame.add_game, h]

/-- Claim C3 witness: the amended statement at a concrete unsupported
file. -/
theorem C3_unsupported_extension_witness :
    AddGame.add_game fsV "game.bin" "Game" false = (fsV, AddOutcome.silentReturn) :=
  C3_unsupported_extension_silent_noop fsV "game.bin" "Game" false (by rfl)

/-- Claim C3 counterexample: the claim as stated says add_game fails with
UnsupportedExtension reported to the user.  At the concrete input
Pokemon.xyz the run ends in the silent early return - not in any raised
or reported error - while the filesystem (including the rom zips
directory) is returned unchanged. -/
theorem C3_counterexample_silent_abort :
    AddGame.add_game fsU "Pokemon.xyz" "Pokemon" true = (fsU, AddOutcome.silentReturn) := by
  decide

/-- Claim C4: App.listdir excludes exactly the four reserved names (the
emulator id and its .config/.home/.png companions) and keeps every other
listed entry; the rebuild makes one GameEntry per surviving entry (the
catalog length is the sum of the filtered listing lengths); and in the
spec scenario - registry entry mgba/gba, directory holding Pokemon and
mgba.config - the rebuild yields exactly one GameEntry named Pokemon. -/
theorem C4_rebuild_excludes_reserved_names :
    (∀ (aid : String) (entries : List String) (d : String),
        d ∈ App.listdir entries aid none ↔
          d ∈ entries ∧ d ∉ [aid, aid ++ ".config", aid ++ ".home", aid ++ ".png"]) ∧
    (∀ listing : String → List String,
        (App.load_games listing).length =
          ((Emulators.ALL.map
            (fun emu => (App.listdir (listing emu.id) emu.id none).length)).sum)) ∧
    App.load_games scenario_listing = [GameEntry.mk "Pokemon" Emulator.MGBA] := by
  refine ⟨fun aid entries d => mem_listdir_iff entries aid d, ?_, ?_⟩
  · intro listing
    simp [App.load_games, WrappingFrame.sort, Emulators.ALL]
  · rw [App.load_games,
      show (Emulators.ALL.flatMap (fun emu =>
        (App.listdir (scenario_listing emu.id) emu.id none).map
          (fun game => GameEntry.mk game emu)))
        = [GameEntry.mk "Pokemon" Emulator.MGBA] from by decide]
    exact List.mergeSort_singleton _

/-- Claim C5: for every descriptor of the registry, resolving by its own
file extension returns that descriptor (first match in registration
order under case-sensitive equality). -/
theorem C5_from_ext_round_trip :
    ∀ e ∈ Emulators.ALL, Emulators.from_ext e.ext = some e := by
  decide

/-- Claim C5 witness: the round trip at the mgba descriptor. -/
theorem C5_round_trip_witness :
    Emulators.from_ext Emulator.MGBA.ext = some Emulator.MGBA :=
  C5_from_ext_round_trip Emulator.MGBA (by decide)

/-- Claim C6: when every probe succeeds, the version-check pass returns
exactly the reports (installed, latest, emulator) of the emulators whose
two versions differ, in registry order; consequently the number of
reports equals the number of mismatched emulators, and each registry
emulator appears in no report when its versions match and in exactly one
report (carrying both version strings) when they differ. -/
theorem C6_version_check_reports (env : Env) (i l : Emulator → String)
    (hI : ∀ e, Emulator.installed_version e env = Except.ok (i e))
    (hL : ∀ e, Emulator.latest_version e env = Except.ok (l e)) :
    check_emu_versions env =
      Except.ok ((Emulators.ALL.filter (fun e => decide (i e ≠ l e))).map
        (fun e => (i e, l e, e))) ∧
    ∀ L, check_emu_versions env = Except.ok L →
      L.length = (Emulators.ALL.filter (fun e => decide (i e ≠ l e))).length ∧
      ∀ e ∈ Emulators.ALL,
        (L.filter (fun r => decide (r.2.2 = e))).length = if i e = l e then 0 else 1 := by
  have hmain := checkLoop_eq_ok env i l hI hL Emulators.ALL
  refine ⟨hmain, ?_⟩
  intro L hok
  rw [check_emu_versions] at hok
  rw [hmain] at hok
  injection hok with h
  subst h
  exact ⟨(List.length_map _ _).symm ▸ rfl, report_count i l⟩

/-- Claim C6 witness: under envA the three github-tracked emulators are
mismatched (1.0 against 2.0) and dolphin is not, so the pass reports
exactly those three. -/
theorem C6_version_check_witness :
    check_emu_versions envA =
      Except.ok [("1.0", "2.0", Emulator.MGBA), ("1.0", "2.0", Emulator.MELONDS),
        ("1.0", "2.0", Emulator.AZAHAR)] :=
  ((C6_version_check_reports envA iA lA
      (by intro e; cases e <;> rfl) (by intro e; cases e <;> rfl)).1).trans (by rfl)

/-- Claim C7: a descriptor whose release source is empty (only dolphin)
has latest_version resolve to the sentinel "auto", which always equals
its installed_version result regardless of the environment, and hence
that descriptor never occurs in any report of a completed version
check. -/
theorem C7_empty_source_never_outdated (e : Emulator) (h : e.gh_path = "") (env : Env) :
    Emulator.latest_version e env = Emulator.installed_version e env ∧
    ∀ L, check_emu_versions env = Except.ok L → ∀ r ∈ L, r.2.2 ≠ e := by
  cases e with
  | MGBA => exact absurd h (by decide)
  | MELONDS => exact absurd h (by decide)
  | AZAHAR => exact absurd h (by decide)
  | DOLPHIN =>
    refine ⟨rfl, ?_⟩
    intro L hok r hr he
    obtain ⟨hi, hl, hne⟩ := checkLoop_mem env Emulators.ALL L hok r hr
    rw [he] at hi hl
    rw [show Emulator.installed_version Emulator.DOLPHIN env = Except.ok "auto" from rfl] at hi
    rw [show Emulator.latest_version Emulator.DOLPHIN env = Except.ok "auto" from rfl] at hl
    injection hi with hi
    injection hl with hl
    exact hne (hi.symm.trans hl)

/-- Claim C7 witness: the sentinel equality at dolphin under envA. -/
theorem C7_empty_source_witness :
    Emulator.latest_version Emulator.DOLPHIN envA =
      Emulator.installed_version Emulator.DOLPHIN envA :=
  (C7_empty_source_never_outdated Emulator.DOLPHIN rfl envA).1

/-- Claim C8: on a supported source file, an icon-fetch failure is
non-fatal: add_game still completes, the created game directory and
moved game file stay in place, and the resulting GameEntry is a member
of the next catalog rebuild over the updated filesystem. -/
theorem C8_icon_failure_nonfatal (fs : FS) (file name : String) (emu : Emulator)
    (installFiles : String → List String)
    (h1 : Emulators.from_ext ((splitext file).2.drop 1) = some emu)
    (h2 : file ∈ fs.rom_zips)
    (h3 : (emu.id, name) ∉ fs.game_dirs)
    (h4 : name ∉ [emu.id, emu.id ++ ".config", emu.id ++ ".home", emu.id ++ ".png"]) :
    (AddGame.add_game fs file name false).2 = AddOutcome.completed ∧
    (emu.id, name) ∈ (AddGame.add_game fs file name false).1.game_dirs ∧
    (emu.id, name, "game." ++ (splitext file).2.drop 1) ∈
      (AddGame.add_game fs file name false).1.game_files ∧
    GameEntry.mk name emu ∈ App.load_games
      (FS.listing (AddGame.add_game fs file name false).1 installFiles) := by
  have hres : AddGame.add_game fs file name false =
      ({ rom_zips := fs.rom_zips.erase file,
         game_dirs := fs.game_dirs ++ [(emu.id, name)],
         game_files := fs.game_files ++ [(emu.id, name, "game." ++ (splitext file).2.drop 1)] },
       AddOutcome.completed) := by
    simp [AddGame.add_game, h1, h2, h3]
  rw [hres]
  refine ⟨rfl, by simp, by simp, ?_⟩
  have hemu : emu ∈ Emulators.ALL := (from_ext_mem h1).1
  simp only [App.load_games, WrappingFrame.sort, List.mem_mergeSort, List.mem_flatMap]
  refine ⟨emu, hemu, ?_⟩
  simp only [List.mem_map]
  refine ⟨name, ?_, rfl⟩
  rw [mem_listdir_iff]
  refine ⟨?_, h4⟩
  refine List.mem_append_right _ ?_
  simp [List.mem_map, List.mem_filter]

/-- Claim C8 witness: adding Pokemon.gba with a failing icon fetch still
completes, keeps the directory and game file, and the entry shows up in
the rebuilt catalog. -/
theorem C8_icon_failure_witness :
    (AddGame.add_game fsW "Pokemon.gba" "Pokemon" false).2 = AddOutcome.completed ∧
    ("mgba", "Pokemon") ∈ (AddGame.add_game fsW "Pokemon.gba" "Pokemon" false).1.game_dirs ∧
    ("mgba", "Pokemon", "game." ++ (splitext "Pokemon.gba").2.drop 1) ∈
      (AddGame.add_game fsW "Pokemon.gba" "Pokemon" false).1.game_files ∧
    GameEntry.mk "Pokemon" Emulator.MGBA ∈ App.load_games
      (FS.listing (AddGame.add_game fsW "Pokemon.gba" "Pokemon" false).1 installFilesW) :=
  C8_icon_failure_nonfatal fsW "Pokemon.gba" "Pokemon" Emulator.MGBA installFilesW
    (by rfl) (by decide) (by decide) (by decide)

/-- Claim C9: WrappingFrame.sort (the stable sort by game name) is
idempotent; sorting a sorted catalog returns the same sequence. -/
theorem C9_sort_idempotent : ∀ games : List GameEntry,
    WrappingFrame.sort (WrappingFrame.sort games) = WrappingFrame.sort games := by
  intro games
  apply List.mergeSort_of_sorted
  apply List.sorted_mergeSort
  · intro a b c hab hbc
    exact decide_eq_true (le_trans (of_decide_eq_true hab) (of_decide_eq_true hbc))
  · intro a b
    rcases le_total a.name b.name with h | h <;> simp [h]

/-- Claim C10: the fixed registry holds exactly the four descriptors
mgba/gba, dolphin/rvz, melonds/nds, azahar/cci, with pairwise distinct
ids and pairwise distinct extensions, so first-match resolution by
extension is unambiguous. -/
theorem C10_registry_fixed_and_unambiguous :
    Emulators.ALL.length = 4 ∧
    Emulators.ALL.map Emulator.id = ["mgba", "dolphin", "melonds", "azahar"] ∧
    Emulators.ALL.map Emulator.ext = ["gba", "rvz", "nds", "cci"] ∧
    (Emulators.ALL.map Emulator.id).Nodup ∧
    (Emulators.ALL.map Emulator.ext).Nodup ∧
    Emulators.ALL.Pairwise (fun a b => a.ext ≠ b.ext) := by
  decide

end EmulatorLauncher
